import Mathlib

/-!
Verification development for the lenaparty photo-gallery backend.

The repository ships two backend variants implementing the same HTTP API:
a Node/Express server (`backend/app.js`) and a PHP server (helpers plus a
router, the files named `part_004` here).  Both are embedded below as pure
Lean functions over explicit state:

* filenames are `String`s; a directory is the `List String` of names it holds
  (the only filesystem fact the code ever queries is name existence);
* an album's on-disk layout is `AlbumDir` (root files plus optional
  `light`/`max` subdirectories, `none` meaning the directory is absent);
* album metadata mirrors the JSON document (`Album`, `Photo`);
* uploaded files are `UFile`: the client-supplied relative name plus oracles
  for the two effectful checks the code performs (MIME/size validation and
  thumbnail decodability) and the probed pixel dimensions;
* fallible handlers return `Except`; UUIDs are modelled as caller-supplied
  strings / sequential numbers and timestamps as a `now : Nat` argument,
  since the code treats both as opaque.
-/

namespace Lena

/-- Characters replaced by `_` in both sanitizers (JS regex `[<>:"/\\|?*]`,
PHP regex `[<>:"\\\/|?*]`). -/
def isIllegalChar (c : Char) : Bool :=
  c == '<' || c == '>' || c == ':' || c == '\"' || c == '/' || c == '\\' ||
  c == '|' || c == '?' || c == '*'

/-- Whitespace class used by the `\s+` regexes and by `trim`. -/
def isWsChar (c : Char) : Bool :=
  c == ' ' || c == '\t' || c == '\n' || c == '\r' ||
  c == Char.ofNat 11 || c == Char.ofNat 12

def replaceIllegal (l : List Char) : List Char :=
  l.map (fun c => if isIllegalChar c then '_' else c)

/-- `replace(/\s+/g, ' ')`: collapse every whitespace run to one space. -/
def collapseWsGo : Bool → List Char → List Char
  | _, [] => []
  | prevWs, c :: rest =>
    if isWsChar c then
      if prevWs then collapseWsGo true rest
      else ' ' :: collapseWsGo true rest
    else c :: collapseWsGo false rest

def collapseWs (l : List Char) : List Char := collapseWsGo false l

/-- `trim()`: drop whitespace from both ends. -/
def trimChars (l : List Char) : List Char :=
  ((l.dropWhile isWsChar).reverse.dropWhile isWsChar).reverse

def strOfChars (l : List Char) : String := ⟨l⟩

/-- Index of the last `'.'` in a segment, if any. -/
def lastDotIdxGo : List Char → Nat → Option Nat
  | [], _ => none
  | c :: rest, i =>
    match lastDotIdxGo rest (i + 1) with
    | some j => some j
    | none => if c = '.' then some i else none

def lastDotIdx (l : List Char) : Option Nat := lastDotIdxGo l 0

/-- Node `path.extname`/`path.basename` split of a path segment: the
extension starts at the last dot, except that a dot in position 0 (a
dotfile) yields no extension.  Returns `(name, ext)`, `ext` with its dot. -/
def nodeSplitExt (l : List Char) : List Char × List Char :=
  match lastDotIdx l with
  | none => (l, [])
  | some 0 => (l, [])
  | some i => (l.take i, l.drop i)

/-- PHP `pathinfo` split: the extension is everything after the last dot
(wherever it is), without the dot; `none` when the segment has no dot. -/
def phpSplitExt (l : List Char) : List Char × Option (List Char) :=
  match lastDotIdx l with
  | none => (l, none)
  | some i => (l.take i, some (l.drop (i + 1)))

/-- PHP string truthiness: `""` and `"0"` are falsy. -/
def phpTruthy : List Char → Bool
  | [] => false
  | ['0'] => false
  | _ => true

/-- Split a character list at every occurrence of `sep` (leftmost,
non-overlapping) — the behaviour of PHP `explode`. -/
def splitOnCharGo (sep : Char) : List Char → List Char → List (List Char)
  | acc, [] => [acc.reverse]
  | acc, c :: rest =>
    if c = sep then acc.reverse :: splitOnCharGo sep [] rest
    else splitOnCharGo sep (c :: acc) rest

def splitOnChar (sep : Char) (l : List Char) : List (List Char) :=
  splitOnCharGo sep [] l

/-- Node `path.basename` (POSIX): ignore trailing slashes, then take the
part after the last `/`.  (The degenerate all-slash input, which Node maps
to "/", does not arise from upload names and is returned unchanged.) -/
def lastSegNode (l : List Char) : List Char :=
  let l' := (l.reverse.dropWhile (fun c => c = '/')).reverse
  if l' = [] then l else (splitOnChar '/' l').getLastD []

/-- Node `sanitizeFilename` (`backend/app.js` lines 113-128) applied to the
decoded name.  The leading `decodeURIComponent` step is the identity for the
percent-free names considered throughout (its `try/catch` also returns the
input unchanged on malformed escapes), so it is not repeated here: split off
the extension, replace illegal characters in the base with `_`, collapse
whitespace runs, trim, and reattach the extension.  There is no fallback for
an empty base. -/
def sanitizeFilename (decoded : String) : String :=
  let seg := lastSegNode decoded.data
  let (name, ext) := nodeSplitExt seg
  strOfChars (trimChars (collapseWs (replaceIllegal name))) ++ strOfChars ext

/-- PHP `sanitize_filename`, raw split: take the last `/`-segment (after
mapping `\` to `/`) and split off the PHP-style extension. -/
def phpRawBase (s : String) : List Char × Option (List Char) :=
  phpSplitExt ((splitOnChar '/' (s.data.map (fun c => if c = '\\' then '/' else c))).getLastD [])

/-- PHP `sanitize_filename`, base-name part: clean the base and substitute
`photo` when the cleaned base is empty; the extension is passed through. -/
def phpSanParts (s : String) : List Char × Option (List Char) :=
  let base' := trimChars (collapseWs (replaceIllegal (phpRawBase s).1))
  (if base' = [] then "photo".data else base', (phpRawBase s).2)

/-- PHP `sanitize_filename` (helpers, lines 39-51): reattach the extension
only when it is PHP-truthy (`$ext ? $base . '.' . $ext : $base`). -/
def php_sanitize_filename (s : String) : String :=
  match (phpSanParts s).2 with
  | some eC => if phpTruthy eC then strOfChars ((phpSanParts s).1 ++ '.' :: eC)
               else strOfChars (phpSanParts s).1
  | none => strOfChars (phpSanParts s).1

/-- ASCII lowercase, the effect of PHP `strtolower` on the names involved. -/
def toLowerChars (l : List Char) : List Char :=
  l.map (fun c => if 'A' ≤ c ∧ c ≤ 'Z' then Char.ofNat (c.toNat + 32) else c)

/-- `explode('___', ·)`: split at every (leftmost, non-overlapping)
occurrence of the three-underscore separator. -/
def splitTripU : List Char → List Char → List (List Char)
  | acc, '_' :: '_' :: '_' :: rest => acc.reverse :: splitTripU [] rest
  | acc, c :: rest => splitTripU (c :: acc) rest
  | acc, [] => [acc.reverse]

/-- The downward scan of `parse_upload_path`: walk the ancestor segments
from the deepest to the shallowest and return the first lowercased segment
equal to `light` or `max` (`[]` when none matches).  Takes the ancestors
already reversed, mirroring `for ($i = count-1; $i >= 0; $i--)`. -/
def deepestTagGo : List (List Char) → List Char
  | [] => []
  | seg :: rest =>
    let lo := toLowerChars seg
    if lo = "light".data ∨ lo = "max".data then lo else deepestTagGo rest

/-- The trimmed, non-empty `___`-segments of an upload name, after mapping
`\` and `/` to `___` (`parse_upload_path`, first line). -/
def phpSegments (s : String) : List (List Char) :=
  let replaced := s.data.foldr
    (fun c acc => (if c = '\\' ∨ c = '/' then "___".data else [c]) ++ acc) []
  ((splitTripU [] replaced).map trimChars).filter (fun seg => seg ≠ [])

/-- PHP `parse_upload_path` (helpers, lines 66-78): returns the folder tag
(`"light"`, `"max"`, or `""`) and the bare file name (deepest segment; the
whole input when no segment survives). -/
def parse_upload_path (s : String) : String × String :=
  let segs := phpSegments s
  let bare := if segs = [] then s.data else segs.getLastD []
  let ancestors := segs.dropLast
  (strOfChars (deepestTagGo ancestors.reverse), strOfChars bare)

/-- Light/max variant tag. -/
inductive VTag
  | vlight
  | vmax
  deriving Repr, DecidableEq

/-- Multer stored filename (`backend/app.js` lines 83-89): `\` to `/`, `/`
to `___`, then `sanitizeFilename`. -/
def nodeStoredName (originalname : String) : String :=
  let joined := (originalname.data.map (fun c => if c = '\\' then '/' else c)).foldr
    (fun c acc => (if c = '/' then "___".data else [c]) ++ acc) []
  sanitizeFilename (strOfChars joined)

/-- Node classification of a stored filename (`backend/app.js` lines
493-502 and 615-631): a case-sensitive `startsWith` on `light___`/`max___`,
the clean name dropping that first occurrence. -/
def nodeClassify (stored : List Char) : Option VTag × List Char :=
  if "light___".data.isPrefixOf stored then (some .vlight, stored.drop 8)
  else if "max___".data.isPrefixOf stored then (some .vmax, stored.drop 6)
  else (none, stored)

/-- Tag assigned by the Node backend to an uploaded relative name. -/
def nodeFileTag (originalname : String) : Option VTag :=
  (nodeClassify (nodeStoredName originalname).data).1

/-! ### Injectivity of `Nat.repr`

Both `getUniqueFilename` variants build candidate names from a decimal
counter; the termination/pigeonhole argument below needs distinct counters
to produce distinct candidate strings. -/

/-- Most-significant-first decimal digits of `n`, the specification that
`Nat.toDigits 10` computes. -/
def reprAuxChars (n : Nat) : List Char :=
  if n < 10 then [Nat.digitChar n]
  else reprAuxChars (n / 10) ++ [Nat.digitChar (n % 10)]
termination_by n
decreasing_by
  exact Nat.div_lt_self (by omega) (by omega)

theorem toDigitsCore_eq_reprAuxChars :
    ∀ (f n : Nat) (ds : List Char), n < f →
      Nat.toDigitsCore 10 f n ds = reprAuxChars n ++ ds := by
  intro f
  induction f with
  | zero => intro n ds h; omega
  | succ f ih =>
    intro n ds _
    by_cases h10 : n / 10 = 0
    · have hn : n < 10 := by
        by_contra hge
        have : 1 ≤ n / 10 := (Nat.one_le_div_iff (by omega)).mpr (by omega)
        omega
      have hmod : n % 10 = n := Nat.mod_eq_of_lt hn
      simp [Nat.toDigitsCore, h10, reprAuxChars, hn, hmod]

    · have hn : ¬ n < 10 := by
        intro hlt
        exact h10 (Nat.div_eq_of_lt hlt)
      have hlt : n / 10 < f := by
        have h1 : n / 10 < n := Nat.div_lt_self (by omega) (by omega)
        omega
      have : Nat.toDigitsCore 10 (f + 1) n ds =
          Nat.toDigitsCore 10 f (n / 10) (Nat.digitChar (n % 10) :: ds) := by
        simp [Nat.toDigitsCore, h10]
      rw [this, ih (n / 10) (Nat.digitChar (n % 10) :: ds) hlt]
      have hrw : reprAuxChars n = reprAuxChars (n / 10) ++ [Nat.digitChar (n % 10)] := by
        rw [reprAuxChars]
        simp [hn]
      rw [hrw, List.append_assoc]
      simp

theorem toDigits_eq_reprAuxChars (n : Nat) :
    Nat.toDigits 10 n = reprAuxChars n := by
  have h := toDigitsCore_eq_reprAuxChars (n + 1) n [] (by omega)
  rw [List.append_nil] at h
  exact h

/-- Decimal decoding, left inverse of `reprAuxChars`. -/
def decodeDigits (l : List Char) : Nat :=
  l.foldl (fun acc c => acc * 10 + (c.toNat - 48)) 0

theorem digitChar_decode (d : Nat) (h : d < 10) :
    (Nat.digitChar d).toNat - 48 = d := by
  interval_cases d <;> rfl

theorem decodeDigits_reprAuxChars : ∀ n, decodeDigits (reprAuxChars n) = n := by
  intro n
  induction n using Nat.strong_induction_on with
  | _ n ih =>
    by_cases hn : n < 10
    · rw [reprAuxChars]
      simp [hn, decodeDigits, digitChar_decode n hn]
    · rw [reprAuxChars]
      simp only [hn, if_false]
      have hdiv : n / 10 < n := Nat.div_lt_self (by omega) (by omega)
      have hrec := ih (n / 10) hdiv
      simp only [decodeDigits, List.foldl_append, List.foldl_cons, List.foldl_nil]
      have : List.foldl (fun acc c => acc * 10 + (c.toNat - 48)) 0
          (reprAuxChars (n / 10)) = n / 10 := hrec
      rw [this, digitChar_decode (n % 10) (Nat.mod_lt n (by omega))]
      omega

theorem natRepr_injective : Function.Injective Nat.repr := by
  intro m n h
  have hd : (Nat.toDigits 10 m) = (Nat.toDigits 10 n) := by
    have : (Nat.toDigits 10 m).asString.data = (Nat.toDigits 10 n).asString.data := by
      rw [show (Nat.toDigits 10 m).asString = Nat.repr m from rfl,
        show (Nat.toDigits 10 n).asString = Nat.repr n from rfl, h]
    simpa [List.asString] using this
  have := congrArg decodeDigits ((toDigits_eq_reprAuxChars m) ▸
    (toDigits_eq_reprAuxChars n) ▸ hd)
  rwa [decodeDigits_reprAuxChars, decodeDigits_reprAuxChars] at this

/-! ### The collision-avoidance loop

Both backends implement the same `while exists` loop; `uniqueLoop` is that
loop with the candidate shape abstracted as `pre ++ counter ++ post` and an
explicit fuel argument (the loop always terminates because the directory is
finite and distinct counters give distinct names; `dir.length + 1` tries
suffice). -/

def candName (pre post : String) (k : Nat) : String :=
  pre ++ Nat.repr k ++ post

def uniqueLoop (dir : List String) (pre post : String) :
    Nat → Nat → String → String
  | 0, _, finalName => finalName
  | fuel + 1, counter, finalName =>
    if finalName ∈ dir then
      uniqueLoop dir pre post fuel (counter + 1) (candName pre post counter)
    else finalName

theorem candName_injective (pre post : String) :
    Function.Injective (candName pre post) := by
  intro j k h
  apply natRepr_injective
  have hdata := congrArg String.data h
  simp only [candName, String.data_append] at hdata
  rw [List.append_assoc, List.append_assoc] at hdata
  have h1 := List.append_cancel_left hdata
  have h2 := List.append_cancel_right h1
  exact String.ext h2

theorem uniqueLoop_of_not_mem (dir : List String) (pre post : String)
    (fuel counter : Nat) (fn : String) (h : fn ∉ dir) :
    uniqueLoop dir pre post fuel counter fn = fn := by
  cases fuel with
  | zero => rfl
  | succ fuel => simp [uniqueLoop, h]

theorem uniqueLoop_not_mem (dir : List String) (pre post : String) :
    ∀ (fuel counter : Nat) (fn : String),
      (fn ∉ dir ∨ ∃ k, counter ≤ k ∧ k < counter + fuel ∧
        candName pre post k ∉ dir) →
      uniqueLoop dir pre post fuel counter fn ∉ dir := by
  intro fuel
  induction fuel with
  | zero =>
    intro counter fn h
    rcases h with h | ⟨k, h1, h2, _⟩
    · simpa [uniqueLoop] using h
    · omega
  | succ fuel ih =>
    intro counter fn h
    by_cases hfn : fn ∈ dir
    · have hex : ∃ k, counter ≤ k ∧ k < counter + (fuel + 1) ∧
          candName pre post k ∉ dir := by
        rcases h with h | h
        · exact absurd hfn h
        · exact h
      simp only [uniqueLoop, hfn, if_true]
      rcases hex with ⟨k, hk1, hk2, hk3⟩
      by_cases hc : candName pre post counter ∈ dir
      · apply ih
        right
        refine ⟨k, ?_, by omega, hk3⟩
        rcases Nat.eq_or_lt_of_le hk1 with rfl | h
        · exact absurd hc hk3
        · omega
      · exact ih (counter + 1) (candName pre post counter) (Or.inl hc)
    · simp [uniqueLoop, hfn]

theorem uniqueLoop_least (dir : List String) (pre post : String) :
    ∀ (fuel counter : Nat) (fn : String),
      fn ∈ dir →
      (∃ k, counter ≤ k ∧ k < counter + fuel ∧ candName pre post k ∉ dir) →
      ∃ k, counter ≤ k ∧ candName pre post k ∉ dir ∧
        (∀ j, counter ≤ j → j < k → candName pre post j ∈ dir) ∧
        uniqueLoop dir pre post fuel counter fn = candName pre post k := by
  intro fuel
  induction fuel with
  | zero =>
    intro counter fn _ h
    rcases h with ⟨k, h1, h2, _⟩
    omega
  | succ fuel ih =>
    intro counter fn hfn hex
    simp only [uniqueLoop, hfn, if_true]
    by_cases hc : candName pre post counter ∈ dir
    · rcases hex with ⟨k, hk1, hk2, hk3⟩
      have hk1' : counter + 1 ≤ k := by
        rcases Nat.eq_or_lt_of_le hk1 with rfl | h
        · exact absurd hc hk3
        · omega
      obtain ⟨k', h1, h2, h3, h4⟩ := ih (counter + 1) (candName pre post counter)
        hc ⟨k, hk1', by omega, hk3⟩
      refine ⟨k', by omega, h2, ?_, h4⟩
      intro j hj1 hj2
      rcases Nat.eq_or_lt_of_le hj1 with rfl | h
      · exact hc
      · exact h3 j h hj2
    · refine ⟨counter, le_refl _, hc, by omega, ?_⟩
      exact uniqueLoop_of_not_mem dir pre post fuel (counter + 1) _ hc

/-- Pigeonhole: among the first `dir.length + 1` counters some candidate
name is not taken. -/
theorem exists_free_cand (dir : List String) (pre post : String) :
    ∃ k, 1 ≤ k ∧ k ≤ dir.length + 1 ∧ candName pre post k ∉ dir := by
  by_contra hall
  push_neg at hall
  have hsub : ∀ k ∈ Finset.Icc 1 (dir.length + 1),
      candName pre post k ∈ dir.toFinset := by
    intro k hk
    rw [Finset.mem_Icc] at hk
    exact List.mem_toFinset.mpr (hall k hk.1 hk.2)
  have hcard := Finset.card_le_card_of_injOn (candName pre post) hsub
    (Set.injOn_of_injective (candName_injective pre post))
  rw [Nat.card_Icc] at hcard
  have := List.toFinset_card_le dir
  omega

theorem uniqueLoop_top_not_mem (dir : List String) (pre post : String)
    (init : String) :
    uniqueLoop dir pre post (dir.length + 1) 1 init ∉ dir := by
  apply uniqueLoop_not_mem
  obtain ⟨k, h1, h2, h3⟩ := exists_free_cand dir pre post
  exact Or.inr ⟨k, h1, by omega, h3⟩

/-- Node `getUniqueFilename` (`backend/app.js` lines 130-142): keep the
filename if free, otherwise append `" (N)"` before the extension for the
first free `N` starting at 1. -/
def getUniqueFilename (dir : List String) (filename : String) : String :=
  uniqueLoop dir (strOfChars (nodeSplitExt filename.data).1 ++ " (")
    (")" ++ strOfChars (nodeSplitExt filename.data).2) (dir.length + 1) 1 filename

/-- PHP `get_unique_filename` (helpers, lines 53-64): same loop, PHP
extension split and truthiness (`$ext ? $base.$suffix.'.'.$ext :
$base.$suffix`). -/
def phpUniquePost (filename : String) : String :=
  ")" ++ (match (phpSplitExt filename.data).2 with
    | some eC => if phpTruthy eC then strOfChars ('.' :: eC) else ""
    | none => "")

def php_get_unique_filename (dir : List String) (filename : String) : String :=
  uniqueLoop dir (strOfChars (phpSplitExt filename.data).1 ++ " (")
    (phpUniquePost filename) (dir.length + 1) 1 filename

theorem getUniqueFilename_not_mem (dir : List String) (filename : String) :
    getUniqueFilename dir filename ∉ dir :=
  uniqueLoop_top_not_mem dir _ _ filename

theorem php_get_unique_filename_not_mem (dir : List String) (filename : String) :
    php_get_unique_filename dir filename ∉ dir :=
  uniqueLoop_top_not_mem dir _ _ filename

/-! ### Data model -/

structure Photo where
  id : Nat
  src : String
  thumbnail : String
  title : String
  width : Nat
  height : Nat
  uploadedAt : Nat
  deriving Repr, DecidableEq

structure Album where
  id : String
  name : String
  thumbnail : String
  photos : List Photo
  hasLightMax : Bool
  createdAt : Nat
  updatedAt : Nat
  deriving Repr, DecidableEq

/-- On-disk layout of one album: the files directly under the album
directory, and the contents of the `light`/`max` subdirectories (`none`
when the subdirectory does not exist). -/
structure AlbumDir where
  rootFiles : List String
  lightDir : Option (List String)
  maxDir : Option (List String)
  deriving Repr, DecidableEq

/-- One uploaded file: the client-supplied relative name, the outcome of
the MIME/size validation, whether a thumbnail can be generated from it
(decodable image), and its probed pixel dimensions. -/
structure UFile where
  originalname : String
  valid : Bool
  thumbOk : Bool
  width : Nat
  height : Nat
  deriving Repr, DecidableEq

/-- Moving a file into a directory (`fs.rename` / `move_uploaded_file`):
an existing file of the same name is silently overwritten, so the name set
gains the name only when it was absent. -/
def moveInto (files : List String) (name : String) : List String :=
  if name ∈ files then files else files ++ [name]

def trimString (s : String) : String := strOfChars (trimChars s.data)

/-- `replace(/\.[^/.]+$/, '')`: drop a final extension (a last dot followed
by one or more characters none of which is `.` or `/`). -/
def stripRegexExt (s : String) : String :=
  match lastDotIdx s.data with
  | none => s
  | some i =>
    let tail := s.data.drop (i + 1)
    if !tail.isEmpty && tail.all (fun c => c != '.' && c != '/') then
      strOfChars (s.data.take i)
    else s

/-- Node thumbnail filename: `path.basename(n, path.extname(n)) + '.jpg'`. -/
def nodeThumbName (n : String) : String :=
  strOfChars (nodeSplitExt (lastSegNode n.data)).1 ++ ".jpg"

/-! ### Node upload pipeline (`backend/app.js`) -/

structure NodeSplit where
  lights : List (UFile × String)
  maxs : List (UFile × String)
  others : List UFile
  deriving Repr, DecidableEq

/-- Separation of a batch by stored-filename prefix (`app.js` lines
488-502 / 610-631); the second component of a tagged entry is the clean
name with the `light___`/`max___` prefix removed. -/
def nodeSplitFiles (files : List UFile) : NodeSplit :=
  files.foldl (fun acc f =>
    match nodeClassify (nodeStoredName f.originalname).data with
    | (some .vlight, bare) => { acc with lights := acc.lights ++ [(f, strOfChars bare)] }
    | (some .vmax, bare) => { acc with maxs := acc.maxs ++ [(f, strOfChars bare)] }
    | (none, _) => { acc with others := acc.others ++ [f] }) ⟨[], [], []⟩

def nodeLightPhoto (albumId : String) (now : Nat) (f : UFile) (bare : String)
    (idx : Nat) : Photo :=
  { id := idx
    src := "/uploads/albums/" ++ albumId ++ "/light/" ++ bare
    thumbnail := "/uploads/thumbnails/" ++ albumId ++ "/" ++ nodeThumbName bare
    title := stripRegexExt bare
    width := f.width
    height := f.height
    uploadedAt := now }

def nodeFlatPhoto (albumId : String) (now : Nat) (f : UFile) (uniq : String)
    (idx : Nat) : Photo :=
  { id := idx
    src := "/uploads/albums/" ++ albumId ++ "/" ++ uniq
    thumbnail := "/uploads/thumbnails/" ++ albumId ++ "/" ++ nodeThumbName uniq
    title := stripRegexExt f.originalname
    width := f.width
    height := f.height
    uploadedAt := now }

/-- Photo-entry loop over the light group (`app.js` lines 518-535 /
662-683): files were all moved beforehand; a thumbnail failure throws and
aborts the request. -/
def nodeLightLoop (albumId : String) (now : Nat) :
    List (UFile × String) → Nat → Except String (List Photo)
  | [], _ => .ok []
  | (f, bare) :: rest, idx =>
    if f.thumbOk then
      match nodeLightLoop albumId now rest (idx + 1) with
      | .ok ps => .ok (nodeLightPhoto albumId now f bare idx :: ps)
      | .error e => .error e
    else .error "thumbnail generation failed"

/-- Flat-mode loop (`app.js` lines 540-561 / 688-712): per file, pick a
collision-free name in the album root, move, then generate the thumbnail
(which may throw, leaving the already-moved files in place). -/
def nodeFlatLoop (albumId : String) (now : Nat) :
    List UFile → List String → Nat → List String × Except String (List Photo)
  | [], root, _ => (root, .ok [])
  | f :: rest, root, idx =>
    let uniq := getUniqueFilename root (sanitizeFilename f.originalname)
    let root' := moveInto root uniq
    if f.thumbOk then
      match nodeFlatLoop albumId now rest root' (idx + 1) with
      | (rootF, .ok ps) => (rootF, .ok (nodeFlatPhoto albumId now f uniq idx :: ps))
      | (rootF, .error e) => (rootF, .error e)
    else (root', .error "thumbnail generation failed")

/-- `if (!album.thumbnail && newPhotos.length > 0) ...` -/
def nodeSetThumb (a : Album) (ps : List Photo) : Album :=
  match ps with
  | [] => a
  | p :: _ => if a.thumbnail = "" then { a with thumbnail := p.thumbnail } else a

/-- Outcome of an ingestion: the handler response, the album record as the
store holds it afterwards (unchanged when the request errors, since
`writeAlbumsData` only runs on success), and the on-disk state (which keeps
any files moved before a failure). -/
structure IngestOut where
  result : Except String (List Photo)
  album : Album
  albumDir : AlbumDir
  deriving Repr

/-- `POST /api/albums/:id/photos`, Node (`app.js` lines 468-583), after the
album lookup: ensure the `light`/`max` directories exist, split the batch by
prefix, and take the light/max branch exactly when both groups are
non-empty; otherwise process the untagged files (or, when there are none,
the whole batch) flat.  There is no structure check against
`album.hasLightMax`. -/
def nodeAppendPhotos (album : Album) (dir : AlbumDir) (files : List UFile)
    (now : Nat) : IngestOut :=
  let light0 := dir.lightDir.getD []
  let max0 := dir.maxDir.getD []
  let sp := nodeSplitFiles files
  let batchLM := !sp.lights.isEmpty && !sp.maxs.isEmpty
  if batchLM then
    let light1 := sp.lights.foldl (fun acc fb => moveInto acc fb.2) light0
    let max1 := sp.maxs.foldl (fun acc fb => moveInto acc fb.2) max0
    let dir2 : AlbumDir := ⟨dir.rootFiles, some light1, some max1⟩
    match nodeLightLoop album.id now sp.lights 0 with
    | .error e => ⟨.error e, album, dir2⟩
    | .ok ps =>
      let album1 := { album with hasLightMax := true }
      let album2 := { album1 with photos := album1.photos ++ ps }
      ⟨.ok ps, { nodeSetThumb album2 ps with updatedAt := now }, dir2⟩
  else
    let toProcess := if !sp.others.isEmpty then sp.others else files
    match nodeFlatLoop album.id now toProcess dir.rootFiles 0 with
    | (rootF, .error e) => ⟨.error e, album, ⟨rootF, some light0, some max0⟩⟩
    | (rootF, .ok ps) =>
      let album2 := { album with photos := album.photos ++ ps }
      ⟨.ok ps, { nodeSetThumb album2 ps with updatedAt := now }, ⟨rootF, some light0, some max0⟩⟩

/-- `POST /api/albums`, Node (`app.js` lines 365-398): the album directory
is created with `light` and `max` subfolders. -/
def nodeCreateAlbum (albumId name : String) (now : Nat) :
    Except String (Album × AlbumDir) :=
  if trimString name = "" then .error "Nazwa albumu jest wymagana"
  else .ok (⟨albumId, trimString name, "", [], false, now, now⟩, ⟨[], some [], some []⟩)

/-- `POST /api/upload`, Node (`app.js` lines 591-732): create a fresh album
(with `light` and `max` directories made unconditionally, lines 607-608) and
ingest the batch; on an error nothing is persisted. -/
def nodeBulkUpload (albumId name : String) (files : List UFile) (now : Nat) :
    Except String (Album × List Photo × AlbumDir) :=
  if trimString name = "" then .error "Nazwa albumu jest wymagana"
  else
    let sp := nodeSplitFiles files
    let batchLM := !sp.lights.isEmpty && !sp.maxs.isEmpty
    let album0 : Album := ⟨albumId, trimString name, "", [], batchLM, now, now⟩
    if batchLM then
      let light1 := sp.lights.foldl (fun acc fb => moveInto acc fb.2) []
      let max1 := sp.maxs.foldl (fun acc fb => moveInto acc fb.2) []
      match nodeLightLoop albumId now sp.lights 0 with
      | .error e => .error e
      | .ok ps =>
        let album1 := { album0 with photos := ps }
        let album2 := match ps with
          | [] => album1
          | p :: _ => { album1 with thumbnail := p.thumbnail }
        .ok (album2, ps, ⟨[], some light1, some max1⟩)
    else
      let toProcess := if !sp.others.isEmpty then sp.others else files
      match nodeFlatLoop albumId now toProcess [] 0 with
      | (_, .error e) => .error e
      | (rootF, .ok ps) =>
        let album1 := { album0 with photos := ps }
        let album2 := match ps with
          | [] => album1
          | p :: _ => { album1 with thumbnail := p.thumbnail }
        .ok (album2, ps, ⟨rootF, some [], some []⟩)

/-! ### PHP upload pipeline (`part_004`) -/

structure PhpGroups where
  lightG : List (UFile × String)
  maxG : List (UFile × String)
  otherG : List (UFile × String)
  deriving Repr, DecidableEq

/-- The grouping loop of `ingest_files_into_album` (lines 541-555):
validate each file in order (the first invalid one throws), classify with
`parse_upload_path` and sanitize the bare name. -/
def phpGroupGo (acc : PhpGroups) : List UFile → Except String PhpGroups
  | [] => .ok acc
  | f :: rest =>
    if !f.valid then .error "Unsupported MIME type"
    else
      let (tag, bare) := parse_upload_path f.originalname
      let entry := (f, php_sanitize_filename bare)
      if tag = "light" then phpGroupGo { acc with lightG := acc.lightG ++ [entry] } rest
      else if tag = "max" then phpGroupGo { acc with maxG := acc.maxG ++ [entry] } rest
      else phpGroupGo { acc with otherG := acc.otherG ++ [entry] } rest

def phpGroupFiles (files : List UFile) : Except String PhpGroups :=
  phpGroupGo ⟨[], [], []⟩ files

def phpLightPhoto (albumId : String) (now : Nat) (f : UFile) (targetName : String)
    (idx : Nat) : Photo :=
  { id := idx
    src := "/uploads/albums/" ++ albumId ++ "/light/" ++ targetName
    thumbnail := "/uploads/thumbnails/" ++ albumId ++ "/" ++
      strOfChars (phpSplitExt targetName.data).1 ++ ".jpg"
    title := strOfChars (phpSplitExt targetName.data).1
    width := f.width
    height := f.height
    uploadedAt := now }

def phpFlatPhoto (albumId : String) (now : Nat) (f : UFile) (targetName : String)
    (idx : Nat) : Photo :=
  { id := idx
    src := "/uploads/albums/" ++ albumId ++ "/" ++ targetName
    thumbnail := "/uploads/thumbnails/" ++ albumId ++ "/" ++
      strOfChars (phpSplitExt targetName.data).1 ++ ".jpg"
    title := strOfChars (phpSplitExt targetName.data).1
    width := f.width
    height := f.height
    uploadedAt := now }

/-- Light-group loop of `ingest_files_into_album` (lines 609-626): per
file, pick a collision-free name, move, generate the thumbnail (throwing
aborts the batch with earlier moves kept), probe dimensions, build the
photo entry. -/
def phpLightLoop (albumId : String) (now : Nat) :
    List (UFile × String) → List String → Nat →
      List String × Except String (List Photo)
  | [], acc, _ => (acc, .ok [])
  | (f, nm) :: rest, acc, idx =>
    let target := php_get_unique_filename acc nm
    let acc' := moveInto acc target
    if f.thumbOk then
      match phpLightLoop albumId now rest acc' (idx + 1) with
      | (accF, .ok ps) => (accF, .ok (phpLightPhoto albumId now f target idx :: ps))
      | (accF, .error e) => (accF, .error e)
    else (acc', .error "Unsupported image type for thumbnails")

/-- Max-group loop (lines 628-634): collision-free move only, no photo
entries. -/
def phpMaxLoop : List (UFile × String) → List String → List String
  | [], acc => acc
  | (_, nm) :: rest, acc => phpMaxLoop rest (moveInto acc (php_get_unique_filename acc nm))

/-- Flat loop (lines 640-657), same shape as the light loop but writing
into the album root. -/
def phpFlatLoop (albumId : String) (now : Nat) :
    List (UFile × String) → List String → Nat →
      List String × Except String (List Photo)
  | [], acc, _ => (acc, .ok [])
  | (f, nm) :: rest, acc, idx =>
    let target := php_get_unique_filename acc nm
    let acc' := moveInto acc target
    if f.thumbOk then
      match phpFlatLoop albumId now rest acc' (idx + 1) with
      | (accF, .ok ps) => (accF, .ok (phpFlatPhoto albumId now f target idx :: ps))
      | (accF, .error e) => (accF, .error e)
    else (acc', .error "Unsupported image type for thumbnails")

/-- `if (!$album['thumbnail'] && !empty($album['photos'])) ...` after the
merge: the first photo of the merged list. -/
def phpSetThumb (a : Album) : Album :=
  if a.thumbnail = "" then
    match a.photos with
    | [] => a
    | p :: _ => { a with thumbnail := p.thumbnail }
  else a

/-- PHP `ingest_files_into_album` (lines 529-661) combined with the shared
post-processing of its callers (`handle_append_photos` / `handle_bulk_upload`:
merge the photos, set the album thumbnail, bump `updatedAt`, persist).  The
structure check (lines 593-600) runs before any file is written, so its
error leaves disk and album untouched; on any error the caller exits before
`write_albums_data`, so the stored album is unchanged. -/
def phpIngest (album : Album) (dir : AlbumDir) (files : List UFile)
    (now : Nat) : IngestOut :=
  match phpGroupFiles files with
  | .error e => ⟨.error e, album, dir⟩
  | .ok g =>
    if album.hasLightMax && (g.lightG.isEmpty || g.maxG.isEmpty) then
      ⟨.error "Album wymaga wysylki w strukturze light/max", album, dir⟩
    else
      let useLM := (!g.lightG.isEmpty && !g.maxG.isEmpty) || album.hasLightMax
      if useLM then
        let light0 := dir.lightDir.getD []
        let max0 := dir.maxDir.getD []
        match phpLightLoop album.id now g.lightG light0 0 with
        | (lightF, .error e) => ⟨.error e, album, ⟨dir.rootFiles, some lightF, some max0⟩⟩
        | (lightF, .ok ps) =>
          let maxF := phpMaxLoop g.maxG max0
          let album1 := { album with hasLightMax := true }
          let album2 := { album1 with photos := album1.photos ++ ps }
          ⟨.ok ps, { phpSetThumb album2 with updatedAt := now },
            ⟨dir.rootFiles, some lightF, some maxF⟩⟩
      else
        let flat := if !g.otherG.isEmpty then g.otherG else g.lightG ++ g.maxG
        match phpFlatLoop album.id now flat dir.rootFiles 0 with
        | (rootF, .error e) => ⟨.error e, album, ⟨rootF, dir.lightDir, dir.maxDir⟩⟩
        | (rootF, .ok ps) =>
          let album2 := { album with photos := album.photos ++ ps }
          ⟨.ok ps, { phpSetThumb album2 with updatedAt := now },
            ⟨rootF, dir.lightDir, dir.maxDir⟩⟩

/-- PHP `handle_create_album` (lines 327-356): `light` and `max`
subdirectories are created eagerly. -/
def phpCreateAlbum (albumId name : String) (now : Nat) :
    Except String (Album × AlbumDir) :=
  if trimString name = "" then .error "Nazwa albumu jest wymagana"
  else .ok (⟨albumId, trimString name, "", [], false, now, now⟩, ⟨[], some [], some []⟩)

/-- PHP `handle_bulk_upload` (lines 395-435): fresh album, then
`ingest_files_into_album`, which only runs `ensure_directory` on the album
root — the `light`/`max` subdirectories are created solely inside the
light/max branch. -/
def phpBulkUpload (albumId name : String) (files : List UFile) (now : Nat) :
    Except String (Album × List Photo × AlbumDir) :=
  if trimString name = "" then .error "Nazwa albumu jest wymagana"
  else if files.isEmpty then .error "Brak plikow do uploadu"
  else
    let album0 : Album := ⟨albumId, trimString name, "", [], false, now, now⟩
    let out := phpIngest album0 ⟨[], none, none⟩ files now
    match out.result with
    | .error e => .error e
    | .ok ps => .ok (out.album, ps, out.albumDir)

/-! ### Archive builder (`GET /api/albums/:id/download`, `app.js` lines
244-298; the PHP `handle_album_zip` is line-for-line the same decision) -/

def lightFolderName (n : String) : String :=
  "Lena " ++ n ++ " - Light - do dzielenia się w internecie"

def maxFolderName (n : String) : String :=
  "Lena " ++ n ++ " - Max - do profesjonalnych wydruków"

/-- ZIP entries produced for a single album, as (top-level folder, path
inside that folder) pairs.  The branch is chosen by directory existence
(`existsSync(lightPath) && existsSync(maxPath)`), not by the album's
`hasLightMax` flag; `archive.directory` recursively copies the source
directory's contents and contributes nothing for an empty one. -/
def zipEntriesSingle (album : Album) (dir : AlbumDir) : List (String × String) :=
  match dir.lightDir, dir.maxDir with
  | some ls, some ms =>
    ls.map (fun f => (lightFolderName album.name, f)) ++
      ms.map (fun f => (maxFolderName album.name, f))
  | _, _ =>
    let folder := "Lena " ++ album.name
    dir.rootFiles.map (fun f => (folder, f)) ++
      (dir.lightDir.getD []).map (fun f => (folder, "light/" ++ f)) ++
      (dir.maxDir.getD []).map (fun f => (folder, "max/" ++ f))

/-- All files stored on disk for an album, with their album-relative
paths. -/
def diskFiles (dir : AlbumDir) : List String :=
  dir.rootFiles ++ (dir.lightDir.getD []).map (fun f => "light/" ++ f) ++
    (dir.maxDir.getD []).map (fun f => "max/" ++ f)

/-! ### Album store (list / get / delete) -/

/-- `data.albums.findIndex(a => a.id === id)` (`-1` modelled as `none`). -/
def findAlbumIdx : List Album → String → Option Nat
  | [], _ => none
  | a :: rest, albumId =>
    if a.id = albumId then some 0 else (findAlbumIdx rest albumId).map (· + 1)

def getAlbum (albums : List Album) (albumId : String) : Option Album :=
  albums.find? (fun a => a.id == albumId)

def listAlbums (albums : List Album) : List Album := albums

/-- `DELETE /api/albums/:id` (`app.js` lines 432-463, PHP lines 377-393):
404 when the id is unknown (before touching anything), otherwise remove the
files (best-effort, not represented here) and splice the entry out. -/
def deleteAlbum (albums : List Album) (albumId : String) :
    Except Nat (List Album) :=
  match findAlbumIdx albums albumId with
  | none => .error 404
  | some i => .ok (albums.eraseIdx i)

/-! ### Helper lemmas -/

theorem strOfChars_ne_empty {l : List Char} (h : l ≠ []) : strOfChars l ≠ "" := by
  intro he
  apply h
  have hd := congrArg String.data he
  simpa [strOfChars] using hd

theorem moveInto_length {l : List String} {name : String} (h : name ∉ l) :
    (moveInto l name).length = l.length + 1 := by
  simp [moveInto, h]

theorem moveInto_mem_self (l : List String) (name : String) :
    name ∈ moveInto l name := by
  by_cases h : name ∈ l <;> simp [moveInto, h]

theorem moveInto_mem_of_mem {l : List String} {x : String} (name : String)
    (h : x ∈ l) : x ∈ moveInto l name := by
  by_cases hm : name ∈ l <;> simp [moveInto, hm, h]

theorem nodeLightLoop_ok (albumId : String) (now : Nat) :
    ∀ (entries : List (UFile × String)) (idx : Nat),
      (∀ e ∈ entries, e.1.thumbOk = true) →
      ∃ ps, nodeLightLoop albumId now entries idx = .ok ps ∧
        ps.length = entries.length ∧
        ∀ p ∈ ps, ∃ r, p.src = "/uploads/albums/" ++ albumId ++ "/light/" ++ r := by
  intro entries
  induction entries with
  | nil => exact fun idx _ => ⟨[], rfl, rfl, by simp⟩
  | cons e rest ih =>
    intro idx h
    obtain ⟨f, bare⟩ := e
    have hf : f.thumbOk = true := h (f, bare) (by simp)
    obtain ⟨ps, hps, hlen, hsrc⟩ := ih (idx + 1) (fun x hx => h x (by simp [hx]))
    refine ⟨nodeLightPhoto albumId now f bare idx :: ps, ?_, by simp [hlen], ?_⟩
    · simp [nodeLightLoop, hf, hps]
    · intro p hp
      rw [List.mem_cons] at hp
      rcases hp with hp | hp
      · exact ⟨bare, by rw [hp]; rfl⟩
      · exact hsrc p hp

theorem nodeLightLoop_error (albumId : String) (now : Nat) :
    ∀ (entries : List (UFile × String)) (idx : Nat),
      (∃ e ∈ entries, e.1.thumbOk = false) →
      ∃ err, nodeLightLoop albumId now entries idx = .error err := by
  intro entries
  induction entries with
  | nil => rintro idx ⟨e, he, _⟩; simp at he
  | cons e rest ih =>
    intro idx h
    obtain ⟨f, bare⟩ := e
    by_cases hf : f.thumbOk = true
    · have hrest : ∃ x ∈ rest, x.1.thumbOk = false := by
        obtain ⟨x, hx, hxf⟩ := h
        rw [List.mem_cons] at hx
        rcases hx with rfl | hx
        · rw [hf] at hxf; cases hxf
        · exact ⟨x, hx, hxf⟩
      obtain ⟨err, herr⟩ := ih (idx + 1) hrest
      exact ⟨err, by simp [nodeLightLoop, hf, herr]⟩
    · have hf' : f.thumbOk = false := by
        cases hb : f.thumbOk
        · rfl
        · exact absurd hb hf
      exact ⟨"thumbnail generation failed", by simp [nodeLightLoop, hf']⟩

theorem nodeFlatLoop_ok (albumId : String) (now : Nat) :
    ∀ (fs : List UFile) (root : List String) (idx : Nat),
      (∀ f ∈ fs, f.thumbOk = true) →
      ∃ rootF ps, nodeFlatLoop albumId now fs root idx = (rootF, .ok ps) ∧
        ps.length = fs.length ∧ rootF.length = root.length + fs.length := by
  intro fs
  induction fs with
  | nil => exact fun root idx _ => ⟨root, [], rfl, rfl, by simp⟩
  | cons f rest ih =>
    intro root idx h
    have hf : f.thumbOk = true := h f (by simp)
    have hnm := getUniqueFilename_not_mem root (sanitizeFilename f.originalname)
    obtain ⟨rootF, ps, heq, hlen, hroot⟩ :=
      ih (moveInto root (getUniqueFilename root (sanitizeFilename f.originalname)))
        (idx + 1) (fun x hx => h x (by simp [hx]))
    refine ⟨rootF, nodeFlatPhoto albumId now f
      (getUniqueFilename root (sanitizeFilename f.originalname)) idx :: ps,
      ?_, by simp [hlen], ?_⟩
    · simp [nodeFlatLoop, hf, heq]
    · rw [hroot, moveInto_length hnm]
      simp only [List.length_cons]
      omega

theorem nodeFlatLoop_error (albumId : String) (now : Nat) :
    ∀ (fs : List UFile) (root : List String) (idx : Nat),
      (∃ f ∈ fs, f.thumbOk = false) →
      ∃ rootF err, nodeFlatLoop albumId now fs root idx = (rootF, .error err) := by
  intro fs
  induction fs with
  | nil => rintro root idx ⟨f, hf, _⟩; simp at hf
  | cons f rest ih =>
    intro root idx h
    by_cases hf : f.thumbOk = true
    · have hrest : ∃ x ∈ rest, x.thumbOk = false := by
        obtain ⟨x, hx, hxf⟩ := h
        rw [List.mem_cons] at hx
        rcases hx with rfl | hx
        · rw [hf] at hxf; cases hxf
        · exact ⟨x, hx, hxf⟩
      obtain ⟨rootF, err, herr⟩ := ih
        (moveInto root (getUniqueFilename root (sanitizeFilename f.originalname)))
        (idx + 1) hrest
      exact ⟨rootF, err, by simp [nodeFlatLoop, hf, herr]⟩
    · have hf' : f.thumbOk = false := by
        cases hb : f.thumbOk
        · rfl
        · exact absurd hb hf
      exact ⟨moveInto root (getUniqueFilename root (sanitizeFilename f.originalname)),
        "thumbnail generation failed", by simp [nodeFlatLoop, hf']⟩

theorem phpLightLoop_ok (albumId : String) (now : Nat) :
    ∀ (entries : List (UFile × String)) (acc : List String) (idx : Nat),
      (∀ e ∈ entries, e.1.thumbOk = true) →
      ∃ accF ps, phpLightLoop albumId now entries acc idx = (accF, .ok ps) ∧
        ps.length = entries.length ∧
        accF.length = acc.length + entries.length ∧
        ∀ p ∈ ps, ∃ r, p.src = "/uploads/albums/" ++ albumId ++ "/light/" ++ r := by
  intro entries
  induction entries with
  | nil => exact fun acc idx _ => ⟨acc, [], rfl, rfl, by simp, by simp⟩
  | cons e rest ih =>
    intro acc idx h
    obtain ⟨f, nm⟩ := e
    have hf : f.thumbOk = true := h (f, nm) (by simp)
    have hnm := php_get_unique_filename_not_mem acc nm
    obtain ⟨accF, ps, heq, hlen, hacc, hsrc⟩ :=
      ih (moveInto acc (php_get_unique_filename acc nm)) (idx + 1)
        (fun x hx => h x (by simp [hx]))
    refine ⟨accF, phpLightPhoto albumId now f (php_get_unique_filename acc nm) idx :: ps,
      ?_, by simp [hlen], ?_, ?_⟩
    · simp [phpLightLoop, hf, heq]
    · rw [hacc, moveInto_length hnm]
      simp only [List.length_cons]
      omega
    · intro p hp
      rw [List.mem_cons] at hp
      rcases hp with hp | hp
      · exact ⟨php_get_unique_filename acc nm, by rw [hp]; rfl⟩
      · exact hsrc p hp

theorem phpLightLoop_error (albumId : String) (now : Nat) :
    ∀ (entries : List (UFile × String)) (acc : List String) (idx : Nat),
      (∃ e ∈ entries, e.1.thumbOk = false) →
      ∃ accF err, phpLightLoop albumId now entries acc idx = (accF, .error err) := by
  intro entries
  induction entries with
  | nil => rintro acc idx ⟨e, he, _⟩; simp at he
  | cons e rest ih =>
    intro acc idx h
    obtain ⟨f, nm⟩ := e
    by_cases hf : f.thumbOk = true
    · have hrest : ∃ x ∈ rest, x.1.thumbOk = false := by
        obtain ⟨x, hx, hxf⟩ := h
        rw [List.mem_cons] at hx
        rcases hx with rfl | hx
        · rw [hf] at hxf; cases hxf
        · exact ⟨x, hx, hxf⟩
      obtain ⟨accF, err, herr⟩ := ih
        (moveInto acc (php_get_unique_filename acc nm)) (idx + 1) hrest
      exact ⟨accF, err, by simp [phpLightLoop, hf, herr]⟩
    · have hf' : f.thumbOk = false := by
        cases hb : f.thumbOk
        · rfl
        · exact absurd hb hf
      exact ⟨moveInto acc (php_get_unique_filename acc nm),
        "Unsupported image type for thumbnails", by simp [phpLightLoop, hf']⟩

theorem phpFlatLoop_ok (albumId : String) (now : Nat) :
    ∀ (entries : List (UFile × String)) (acc : List String) (idx : Nat),
      (∀ e ∈ entries, e.1.thumbOk = true) →
      ∃ accF ps, phpFlatLoop albumId now entries acc idx = (accF, .ok ps) ∧
        ps.length = entries.length ∧ accF.length = acc.length + entries.length := by
  intro entries
  induction entries with
  | nil => exact fun acc idx _ => ⟨acc, [], rfl, rfl, by simp⟩
  | cons e rest ih =>
    intro acc idx h
    obtain ⟨f, nm⟩ := e
    have hf : f.thumbOk = true := h (f, nm) (by simp)
    have hnm := php_get_unique_filename_not_mem acc nm
    obtain ⟨accF, ps, heq, hlen, hacc⟩ :=
      ih (moveInto acc (php_get_unique_filename acc nm)) (idx + 1)
        (fun x hx => h x (by simp [hx]))
    refine ⟨accF, phpFlatPhoto albumId now f (php_get_unique_filename acc nm) idx :: ps,
      ?_, by simp [hlen], ?_⟩
    · simp [phpFlatLoop, hf, heq]
    · rw [hacc, moveInto_length hnm]
      simp only [List.length_cons]
      omega

theorem phpFlatLoop_error (albumId : String) (now : Nat) :
    ∀ (entries : List (UFile × String)) (acc : List String) (idx : Nat),
      (∃ e ∈ entries, e.1.thumbOk = false) →
      ∃ accF err, phpFlatLoop albumId now entries acc idx = (accF, .error err) := by
  intro entries
  induction entries with
  | nil => rintro acc idx ⟨e, he, _⟩; simp at he
  | cons e rest ih =>
    intro acc idx h
    obtain ⟨f, nm⟩ := e
    by_cases hf : f.thumbOk = true
    · have hrest : ∃ x ∈ rest, x.1.thumbOk = false := by
        obtain ⟨x, hx, hxf⟩ := h
        rw [List.mem_cons] at hx
        rcases hx with rfl | hx
        · rw [hf] at hxf; cases hxf
        · exact ⟨x, hx, hxf⟩
      obtain ⟨accF, err, herr⟩ := ih
        (moveInto acc (php_get_unique_filename acc nm)) (idx + 1) hrest
      exact ⟨accF, err, by simp [phpFlatLoop, hf, herr]⟩
    · have hf' : f.thumbOk = false := by
        cases hb : f.thumbOk
        · rfl
        · exact absurd hb hf
      exact ⟨moveInto acc (php_get_unique_filename acc nm),
        "Unsupported image type for thumbnails", by simp [phpFlatLoop, hf']⟩

theorem phpMaxLoop_length :
    ∀ (entries : List (UFile × String)) (acc : List String),
      (phpMaxLoop entries acc).length = acc.length + entries.length := by
  intro entries
  induction entries with
  | nil => intro acc; simp [phpMaxLoop]
  | cons e rest ih =>
    intro acc
    obtain ⟨f, nm⟩ := e
    have hnm := php_get_unique_filename_not_mem acc nm
    rw [show phpMaxLoop ((f, nm) :: rest) acc =
      phpMaxLoop rest (moveInto acc (php_get_unique_filename acc nm)) from rfl,
      ih, moveInto_length hnm]
    simp only [List.length_cons]
    omega

theorem find?_eq_head?_filter {α : Type} (p : α → Bool) :
    ∀ l : List α, l.find? p = (l.filter p).head? := by
  intro l
  induction l with
  | nil => rfl
  | cons a rest ih =>
    cases h : p a
    · rw [List.find?_cons_of_neg _ (by simp [h]), List.filter_cons_of_neg (by simp [h])]
      exact ih
    · rw [List.find?_cons_of_pos _ h, List.filter_cons_of_pos h]
      rfl

theorem getLast?_filter_eq_find?_reverse {α : Type} (p : α → Bool) (l : List α) :
    (l.filter p).getLast? = l.reverse.find? p := by
  rw [find?_eq_head?_filter, ← List.head?_reverse, List.filter_reverse]

theorem findAlbumIdx_eq_none (albumId : String) :
    ∀ l : List Album, (∀ b ∈ l, b.id ≠ albumId) → findAlbumIdx l albumId = none := by
  intro l
  induction l with
  | nil => intro _; rfl
  | cons a rest ih =>
    intro h
    have ha : a.id ≠ albumId := h a (by simp)
    simp [findAlbumIdx, ha, ih (fun b hb => h b (by simp [hb]))]

/-! ### Sample data used by concrete counterexamples and witnesses -/

def lightPairFile : UFile := ⟨"light/photo.jpg", true, true, 10, 20⟩

def maxPairFile : UFile := ⟨"max/photo.jpg", true, true, 100, 200⟩

def untaggedFile : UFile := ⟨"photo.jpg", true, true, 5, 6⟩

def badThumbFile : UFile := ⟨"bad.jpg", true, false, 1, 1⟩

def flatAlbum : Album := ⟨"a1", "A", "", [], false, 0, 0⟩

def structuredAlbum : Album := ⟨"a1", "A", "", [], true, 0, 0⟩

def emptyDirs : AlbumDir := ⟨[], some [], some []⟩

def bareDir : AlbumDir := ⟨[], none, none⟩

/-! ### Claim C1 -/

/-- C1 counterexample: the Node `POST /api/albums/:id/photos` handler does
not enforce the light/max invariant.  A batch containing a single
light-tagged file, sent to an album with `hasLightMax = true`, is not
rejected: it falls into the flat branch, which processes the whole batch,
writes `photo.jpg` into the album root, and appends one Photo entity. -/
theorem C1_node_accepts_unpaired_batch :
    (nodeAppendPhotos structuredAlbum emptyDirs [lightPairFile] 1).result.toOption.map
      List.length = some 1 ∧
    (nodeAppendPhotos structuredAlbum emptyDirs [lightPairFile] 1).album.photos.length = 1 ∧
    (nodeAppendPhotos structuredAlbum emptyDirs [lightPairFile] 1).albumDir.rootFiles =
      ["photo.jpg"] :=
  ⟨rfl, rfl, rfl⟩

/-- C1 (amended): in the PHP backend, an upload batch to an album with
`hasLightMax = true` that does not contain both a non-empty light group and
a non-empty max group is rejected with the structure-mismatch error, and
the rejection is atomic: the check precedes every file move, so the on-disk
state and the album record (photo list and all other metadata) are
unchanged.  The Node backend does not perform this check (see the
counterexample). -/
theorem C1_php_rejects_unpaired_batch_atomically
    (album : Album) (dir : AlbumDir) (files : List UFile) (now : Nat)
    (g : PhpGroups) (hg : phpGroupFiles files = .ok g)
    (hlm : album.hasLightMax = true)
    (hmiss : (g.lightG.isEmpty || g.maxG.isEmpty) = true) :
    (phpIngest album dir files now).result =
      .error "Album wymaga wysylki w strukturze light/max" ∧
    (phpIngest album dir files now).album = album ∧
    (phpIngest album dir files now).albumDir = dir := by
  refine ⟨?_, ?_, ?_⟩ <;> simp [phpIngest, hg, hlm, hmiss]

theorem C1_php_rejects_unpaired_batch_atomically_witness :
    (phpIngest structuredAlbum emptyDirs [lightPairFile] 1).result =
      .error "Album wymaga wysylki w strukturze light/max" ∧
    (phpIngest structuredAlbum emptyDirs [lightPairFile] 1).album = structuredAlbum ∧
    (phpIngest structuredAlbum emptyDirs [lightPairFile] 1).albumDir = emptyDirs :=
  C1_php_rejects_unpaired_batch_atomically structuredAlbum emptyDirs [lightPairFile] 1
    ⟨[(lightPairFile, "photo.jpg")], [], []⟩ rfl rfl rfl

/-! ### Claim C5 -/

/-- C5 counterexample: the Node `sanitizeFilename` has no fallback for an
empty base: `"   .jpg"` sanitizes to the extension-only name `".jpg"` and
`"   "` sanitizes to the empty string. -/
theorem C5_node_sanitize_no_fallback :
    sanitizeFilename "   .jpg" = ".jpg" ∧ sanitizeFilename "   " = "" :=
  ⟨rfl, rfl⟩

/-- C5 (amended): the PHP `sanitize_filename` always produces a non-empty
base name — when stripping separators, replacing illegal characters,
collapsing whitespace and trimming leave the base empty, it substitutes
`photo` — and therefore never returns an empty or extension-only name.  The
Node `sanitizeFilename` has no such fallback (see the counterexample). -/
theorem C5_php_sanitize_fallback (s : String) :
    (phpSanParts s).1 ≠ [] ∧ php_sanitize_filename s ≠ "" := by
  have hbase : (phpSanParts s).1 ≠ [] := by
    by_cases h : trimChars (collapseWs (replaceIllegal (phpRawBase s).1)) = []
    · show (if trimChars (collapseWs (replaceIllegal (phpRawBase s).1)) = []
        then "photo".data else _) ≠ []
      rw [if_pos h]
      decide
    · show (if trimChars (collapseWs (replaceIllegal (phpRawBase s).1)) = []
        then "photo".data else trimChars (collapseWs (replaceIllegal (phpRawBase s).1))) ≠ []
      rw [if_neg h]
      exact h
  refine ⟨hbase, ?_⟩
  cases hE : (phpSanParts s).2 with
  | none =>
    simp only [php_sanitize_filename, hE]
    exact strOfChars_ne_empty hbase
  | some eC =>
    simp only [php_sanitize_filename, hE]
    by_cases ht : phpTruthy eC = true
    · rw [if_pos ht]
      apply strOfChars_ne_empty
      simp
    · rw [if_neg ht]
      exact strOfChars_ne_empty hbase

/-! ### Claim C6 -/

/-- The files for which the Node handler generates thumbnails: the light
group in the light/max branch, otherwise the untagged files (or the whole
batch when there are none). -/
def nodeThumbedFiles (files : List UFile) : List UFile :=
  if !(nodeSplitFiles files).lights.isEmpty && !(nodeSplitFiles files).maxs.isEmpty then
    (nodeSplitFiles files).lights.map Prod.fst
  else if !(nodeSplitFiles files).others.isEmpty then (nodeSplitFiles files).others
  else files

/-- The entries for which the PHP ingestion generates thumbnails. -/
def phpThumbedEntries (album : Album) (g : PhpGroups) : List (UFile × String) :=
  if (!g.lightG.isEmpty && !g.maxG.isEmpty) || album.hasLightMax then g.lightG
  else if !g.otherG.isEmpty then g.otherG
  else g.lightG ++ g.maxG

/-- C6 counterexample: a flat two-file batch whose second file has an
undecodable image aborts the whole request in both backends: the response
is an error and no Photo entity — not even for the first, decodable file —
is committed to the album (the first file does remain on disk as an
orphan). -/
theorem C6_thumbnail_failure_aborts_whole_batch :
    (nodeAppendPhotos flatAlbum emptyDirs [untaggedFile, badThumbFile] 1).result =
      .error "thumbnail generation failed" ∧
    (nodeAppendPhotos flatAlbum emptyDirs [untaggedFile, badThumbFile] 1).album.photos = [] ∧
    (nodeAppendPhotos flatAlbum emptyDirs [untaggedFile, badThumbFile] 1).albumDir.rootFiles =
      ["photo.jpg", "bad.jpg"] ∧
    (phpIngest flatAlbum bareDir [untaggedFile, badThumbFile] 1).result =
      .error "Unsupported image type for thumbnails" ∧
    (phpIngest flatAlbum bareDir [untaggedFile, badThumbFile] 1).album.photos = [] :=
  ⟨rfl, rfl, rfl, rfl, rfl⟩

/-- C6 (amended): a thumbnail-generation failure for any file of the batch
is not isolated to that file — in both backends the exception aborts the
entire request: the response is an error and no Photo entity from the batch
is committed (the album record is unchanged; files moved before the failure
remain on disk). -/
theorem C6_thumbnail_failure_fails_batch :
    (∀ (album : Album) (dir : AlbumDir) (files : List UFile) (now : Nat),
      (∃ f ∈ nodeThumbedFiles files, f.thumbOk = false) →
      (∃ e, (nodeAppendPhotos album dir files now).result = .error e) ∧
      (nodeAppendPhotos album dir files now).album = album) ∧
    (∀ (album : Album) (dir : AlbumDir) (files : List UFile) (now : Nat)
      (g : PhpGroups), phpGroupFiles files = .ok g →
      (∃ e ∈ phpThumbedEntries album g, e.1.thumbOk = false) →
      (∃ e, (phpIngest album dir files now).result = .error e) ∧
      (phpIngest album dir files now).album = album) := by
  constructor
  · intro album dir files now hbad
    cases hb : (!(nodeSplitFiles files).lights.isEmpty &&
        !(nodeSplitFiles files).maxs.isEmpty) with
    | true =>
      rw [nodeThumbedFiles, if_pos hb] at hbad
      obtain ⟨f, hf, hfb⟩ := hbad
      obtain ⟨e, he, hfst⟩ := List.mem_map.mp hf
      obtain ⟨err, herr⟩ := nodeLightLoop_error album.id now
        (nodeSplitFiles files).lights 0 ⟨e, he, by rw [hfst]; exact hfb⟩
      refine ⟨⟨err, ?_⟩, ?_⟩ <;> simp [nodeAppendPhotos, hb, herr]
    | false =>
      rw [nodeThumbedFiles, if_neg (by simp [hb])] at hbad
      by_cases ho : (nodeSplitFiles files).others = []
      · rw [if_neg (by simp [ho])] at hbad
        obtain ⟨rootF, err, herr⟩ := nodeFlatLoop_error album.id now files
          dir.rootFiles 0 hbad
        refine ⟨⟨err, ?_⟩, ?_⟩ <;> simp [nodeAppendPhotos, hb, ho, herr]
      · rw [if_pos (by simp [ho])] at hbad
        obtain ⟨rootF, err, herr⟩ := nodeFlatLoop_error album.id now
          (nodeSplitFiles files).others dir.rootFiles 0 hbad
        refine ⟨⟨err, ?_⟩, ?_⟩ <;> simp [nodeAppendPhotos, hb, ho, herr]
  · intro album dir files now g hg hbad
    cases hs : (album.hasLightMax && (g.lightG.isEmpty || g.maxG.isEmpty)) with
    | true =>
      refine ⟨⟨"Album wymaga wysylki w strukturze light/max", ?_⟩, ?_⟩ <;>
        simp [phpIngest, hg, hs]
    | false =>
      cases hu : ((!g.lightG.isEmpty && !g.maxG.isEmpty) || album.hasLightMax) with
      | true =>
        rw [phpThumbedEntries, if_pos hu] at hbad
        obtain ⟨accF, err, herr⟩ := phpLightLoop_error album.id now g.lightG
          (dir.lightDir.getD []) 0 hbad
        refine ⟨⟨err, ?_⟩, ?_⟩ <;> simp [phpIngest, hg, hs, hu, herr]
      | false =>
        rw [phpThumbedEntries, if_neg (by simp [hu])] at hbad
        by_cases ho : g.otherG = []
        · rw [if_neg (by simp [ho])] at hbad
          obtain ⟨accF, err, herr⟩ := phpFlatLoop_error album.id now
            (g.lightG ++ g.maxG) dir.rootFiles 0 hbad
          refine ⟨⟨err, ?_⟩, ?_⟩ <;> simp [phpIngest, hg, hs, hu, ho, herr]
        · rw [if_pos (by simp [ho])] at hbad
          obtain ⟨accF, err, herr⟩ := phpFlatLoop_error album.id now
            g.otherG dir.rootFiles 0 hbad
          refine ⟨⟨err, ?_⟩, ?_⟩ <;> simp [phpIngest, hg, hs, hu, ho, herr]

/-! ### Claim C2 -/

def c2Upload : Except String (Album × List Photo × AlbumDir) :=
  nodeBulkUpload "a1" "Wesele" [untaggedFile] 0

def c2Album : Album :=
  match c2Upload with
  | .ok (a, _, _) => a
  | .error _ => flatAlbum

def c2Dir : AlbumDir :=
  match c2Upload with
  | .ok (_, _, d) => d
  | .error _ => bareDir

/-- C2 counterexample: a flat album created through `POST /api/upload` gets
empty `light` and `max` subdirectories (lines 607-608), and the download
endpoint branches on directory existence, not on the album's `hasLightMax`
flag.  Downloading this one-photo flat album therefore takes the light/max
branch over two empty directories and produces a ZIP with no entries at
all: it does not contain a `"Lena Wesele"` folder with `photo.jpg`. -/
theorem C2_flat_album_zip_misses_files :
    c2Upload.toOption.isSome = true ∧
    c2Album.hasLightMax = false ∧
    c2Dir.rootFiles = ["photo.jpg"] ∧
    c2Dir.lightDir = some [] ∧
    c2Dir.maxDir = some [] ∧
    zipEntriesSingle c2Album c2Dir = [] :=
  ⟨rfl, rfl, rfl, rfl, rfl, rfl⟩

/-- C2 (amended): for an album whose directory does not have both `light`
and `max` subdirectories (the legacy flat layout) and holds at least one
file, the download ZIP has exactly one top-level folder, named
`"Lena <AlbumName>"`, containing exactly the files stored on disk for the
album.  For a flat album whose directory does contain both subdirectories —
as produced by the current creation endpoints — the download instead takes
the light/max branch and omits the root files (see the counterexample). -/
theorem C2_flat_zip_single_folder (album : Album) (dir : AlbumDir)
    (h : ¬(dir.lightDir.isSome = true ∧ dir.maxDir.isSome = true))
    (hne : dir.rootFiles ≠ []) :
    zipEntriesSingle album dir ≠ [] ∧
    (∀ e ∈ zipEntriesSingle album dir, e.1 = "Lena " ++ album.name) ∧
    (zipEntriesSingle album dir).map Prod.snd = diskFiles dir := by
  obtain ⟨rf, ld, md⟩ := dir
  cases ld with
  | some ls =>
    cases md with
    | some ms => simp at h
    | none =>
      refine ⟨?_, ?_, ?_⟩
      · simp [zipEntriesSingle, hne]
      · intro e he
        simp only [zipEntriesSingle, List.mem_append, List.mem_map] at he
        rcases he with (⟨f, _, rfl⟩ | ⟨f, _, rfl⟩) | ⟨f, hf, rfl⟩ <;> rfl
      · simp [zipEntriesSingle, diskFiles, List.map_map, Function.comp]
  | none =>
    cases md with
    | some ms =>
      refine ⟨?_, ?_, ?_⟩
      · simp [zipEntriesSingle, hne]
      · intro e he
        simp only [zipEntriesSingle, List.mem_append, List.mem_map] at he
        rcases he with (⟨f, _, rfl⟩ | ⟨f, _, rfl⟩) | ⟨f, hf, rfl⟩ <;> rfl
      · simp [zipEntriesSingle, diskFiles, List.map_map, Function.comp]
    | none =>
      refine ⟨?_, ?_, ?_⟩
      · simp [zipEntriesSingle, hne]
      · intro e he
        simp only [zipEntriesSingle, List.mem_append, List.mem_map] at he
        rcases he with (⟨f, _, rfl⟩ | ⟨f, _, rfl⟩) | ⟨f, hf, rfl⟩ <;> rfl
      · simp [zipEntriesSingle, diskFiles, List.map_map, Function.comp]

theorem C2_flat_zip_single_folder_witness :
    zipEntriesSingle flatAlbum ⟨["a.jpg"], none, none⟩ ≠ [] ∧
    (∀ e ∈ zipEntriesSingle flatAlbum ⟨["a.jpg"], none, none⟩,
      e.1 = "Lena " ++ flatAlbum.name) ∧
    (zipEntriesSingle flatAlbum ⟨["a.jpg"], none, none⟩).map Prod.snd =
      diskFiles ⟨["a.jpg"], none, none⟩ :=
  C2_flat_zip_single_folder flatAlbum ⟨["a.jpg"], none, none⟩ (by decide) (by decide)

/-! ### Claim C3 -/

def dirWithLightPhoto : AlbumDir := ⟨[], some ["photo.jpg"], some []⟩

/-- C3 counterexample: the Node light/max branch moves files under their
clean names without any collision check (`fs.rename` silently replaces the
target).  Uploading a `light/photo.jpg` + `max/photo.jpg` pair into an album
whose `light` directory already holds `photo.jpg` succeeds, leaves the
directory with the single name `photo.jpg` (the existing file was
overwritten) and creates no `photo (1).jpg`. -/
theorem C3_node_lightmax_move_overwrites :
    (nodeAppendPhotos flatAlbum dirWithLightPhoto [lightPairFile, maxPairFile]
      1).albumDir.lightDir = some ["photo.jpg"] ∧
    (nodeAppendPhotos flatAlbum dirWithLightPhoto [lightPairFile, maxPairFile]
      1).result.toOption.isSome = true ∧
    "photo (1).jpg" ∉ ((nodeAppendPhotos flatAlbum dirWithLightPhoto
      [lightPairFile, maxPairFile] 1).albumDir.lightDir.getD []) :=
  ⟨rfl, rfl, by decide⟩

/-- The candidate name tried by `getUniqueFilename` for counter `k`:
`name (k)ext`. -/
def nodeCandidate (filename : String) (k : Nat) : String :=
  candName (strOfChars (nodeSplitExt filename.data).1 ++ " (")
    (")" ++ strOfChars (nodeSplitExt filename.data).2) k

/-- C3 (amended): `getUniqueFilename` itself is collision-safe — the chosen
name never names an existing file; a free candidate name is kept as is; and
when the candidate exists, the result is `name (N)ext` for the least free
`N ≥ 1` (so the second duplicate receives `" (1)"`, a third `" (2)"`, and
so on).  The flat branches of both backends and the PHP light/max branch
route every stored name through this function; the Node light/max branch
does not (see the counterexample). -/
theorem C3_getUniqueFilename_collision_safe (dir : List String) (filename : String) :
    getUniqueFilename dir filename ∉ dir ∧
    (filename ∉ dir → getUniqueFilename dir filename = filename) ∧
    (filename ∈ dir → ∃ k, 1 ≤ k ∧
      getUniqueFilename dir filename = nodeCandidate filename k ∧
      nodeCandidate filename k ∉ dir ∧
      ∀ j, 1 ≤ j → j < k → nodeCandidate filename j ∈ dir) := by
  refine ⟨getUniqueFilename_not_mem dir filename, ?_, ?_⟩
  · intro h
    exact uniqueLoop_of_not_mem dir _ _ (dir.length + 1) 1 filename h
  · intro h
    obtain ⟨k0, hk1, hk2, hk3⟩ := exists_free_cand dir
      (strOfChars (nodeSplitExt filename.data).1 ++ " (")
      (")" ++ strOfChars (nodeSplitExt filename.data).2)
    obtain ⟨k, h1, h2, h3, h4⟩ := uniqueLoop_least dir _ _ (dir.length + 1) 1 filename
      h ⟨k0, hk1, by omega, hk3⟩
    exact ⟨k, h1, h4, h2, h3⟩

theorem C3_getUniqueFilename_collision_safe_witness :
    getUniqueFilename ["photo.jpg", "photo (1).jpg"] "photo.jpg" ∉
      ["photo.jpg", "photo (1).jpg"] ∧
    getUniqueFilename [] "photo.jpg" = "photo.jpg" ∧
    (∃ k, 1 ≤ k ∧
      getUniqueFilename ["photo.jpg", "photo (1).jpg"] "photo.jpg" =
        nodeCandidate "photo.jpg" k ∧
      nodeCandidate "photo.jpg" k ∉ ["photo.jpg", "photo (1).jpg"] ∧
      ∀ j, 1 ≤ j → j < k → nodeCandidate "photo.jpg" j ∈
        ["photo.jpg", "photo (1).jpg"]) :=
  ⟨(C3_getUniqueFilename_collision_safe ["photo.jpg", "photo (1).jpg"] "photo.jpg").1,
    (C3_getUniqueFilename_collision_safe [] "photo.jpg").2.1 (by decide),
    (C3_getUniqueFilename_collision_safe ["photo.jpg", "photo (1).jpg"] "photo.jpg").2.2
      (by decide)⟩

/-! ### Claim C4 -/

/-- A path segment counting as a variant folder: equal to `light` or `max`
up to ASCII case. -/
def isVariantSeg (seg : List Char) : Bool :=
  decide (toLowerChars seg = "light".data) || decide (toLowerChars seg = "max".data)

/-- Classification as the claim words it: the tag is the lowercased deepest
(= last) ancestor path segment equal to `light` or `max` case-insensitively,
and empty when no ancestor matches. -/
def claimDeepTag (s : String) : String :=
  match ((phpSegments s).dropLast.filter isVariantSeg).getLast? with
  | some seg => strOfChars (toLowerChars seg)
  | none => ""

theorem deepestTagGo_eq_find? :
    ∀ l : List (List Char), deepestTagGo l =
      (match l.find? isVariantSeg with
       | some seg => toLowerChars seg
       | none => []) := by
  intro l
  induction l with
  | nil => rfl
  | cons seg rest ih =>
    by_cases h : toLowerChars seg = "light".data ∨ toLowerChars seg = "max".data
    · have hb : isVariantSeg seg = true := by
        simp only [isVariantSeg, Bool.or_eq_true, decide_eq_true_eq]
        exact h
      rw [List.find?_cons_of_pos _ hb]
      simp [deepestTagGo, h]
    · have hb : ¬ isVariantSeg seg = true := by
        simp only [isVariantSeg, Bool.or_eq_true, decide_eq_true_eq]
        exact h
      rw [List.find?_cons_of_neg _ hb]
      simp [deepestTagGo, h, ih]

/-- C4 counterexample: the Node backend classifies by a case-sensitive
`startsWith('light___')`/`startsWith('max___')` on the joined name, i.e. by
the first path segment only and without case folding.  `Light/photo.jpg`
and `wedding/light/photo.jpg` are both left untagged by Node, while the
deepest-ancestor case-insensitive rule (implemented by the PHP
`parse_upload_path`) tags both as light. -/
theorem C4_node_prefix_classification :
    nodeFileTag "Light/photo.jpg" = none ∧
    nodeFileTag "wedding/light/photo.jpg" = none ∧
    parse_upload_path "Light/photo.jpg" = ("light", "photo.jpg") ∧
    parse_upload_path "wedding/light/photo.jpg" = ("light", "photo.jpg") :=
  ⟨rfl, rfl, rfl, rfl⟩

/-- C4 (amended): the PHP `parse_upload_path` classifies every uploaded
filename exactly as the claim describes — by the deepest ancestor path
segment equal to `light` or `max` compared case-insensitively.  The Node
backend instead uses a case-sensitive prefix match on the first segment
(see the counterexample). -/
theorem C4_php_classifies_by_deepest_segment (s : String) :
    (parse_upload_path s).1 = claimDeepTag s := by
  show strOfChars (deepestTagGo (phpSegments s).dropLast.reverse) = claimDeepTag s
  rw [deepestTagGo_eq_find?,
    ← getLast?_filter_eq_find?_reverse isVariantSeg ((phpSegments s).dropLast)]
  unfold claimDeepTag
  cases hE : ((phpSegments s).dropLast.filter isVariantSeg).getLast? <;> rfl

/-! ### Claim C7 -/

theorem foldl_moveInto_preserve :
    ∀ (entries : List (UFile × String)) (acc : List String) (x : String),
      x ∈ acc → x ∈ entries.foldl (fun a fb => moveInto a fb.2) acc := by
  intro entries
  induction entries with
  | nil => intro acc x hx; exact hx
  | cons e rest ih =>
    intro acc x hx
    exact ih (moveInto acc e.2) x (moveInto_mem_of_mem e.2 hx)

theorem foldl_moveInto_mem :
    ∀ (entries : List (UFile × String)) (acc : List String) (e : UFile × String),
      e ∈ entries → e.2 ∈ entries.foldl (fun a fb => moveInto a fb.2) acc := by
  intro entries
  induction entries with
  | nil => intro acc e he; simp at he
  | cons e0 rest ih =>
    intro acc e he
    rw [List.mem_cons] at he
    rcases he with rfl | he
    · exact foldl_moveInto_preserve rest (moveInto acc e.2) e.2 (moveInto_mem_self acc e.2)
    · exact ih (moveInto acc e0.2) e he

/-- C7: in a light/max-mode ingestion both backends create exactly one
Photo entity per file of the light group, every created photo's `src`
points into the album's `light/` directory (thumbnail and dimensions are
taken from that light copy), and no Photo entity is created for any max
file — the max files only land on disk (in the Node backend each clean max
name is present in the `max` directory afterwards; in the PHP backend the
`max` directory grows by exactly the number of max files, under
collision-free names). -/
theorem C7_lightmax_one_photo_per_light_file :
    (∀ (album : Album) (dir : AlbumDir) (files : List UFile) (now : Nat),
      (nodeSplitFiles files).lights ≠ [] →
      (nodeSplitFiles files).maxs ≠ [] →
      (∀ e ∈ (nodeSplitFiles files).lights, e.1.thumbOk = true) →
      ∃ ps, (nodeAppendPhotos album dir files now).result = .ok ps ∧
        ps.length = (nodeSplitFiles files).lights.length ∧
        (∀ p ∈ ps, ∃ r, p.src = "/uploads/albums/" ++ album.id ++ "/light/" ++ r) ∧
        (∀ fb ∈ (nodeSplitFiles files).maxs,
          fb.2 ∈ (nodeAppendPhotos album dir files now).albumDir.maxDir.getD [])) ∧
    (∀ (album : Album) (dir : AlbumDir) (files : List UFile) (now : Nat)
      (g : PhpGroups), phpGroupFiles files = .ok g →
      g.lightG ≠ [] → g.maxG ≠ [] →
      (∀ e ∈ g.lightG, e.1.thumbOk = true) →
      ∃ ps, (phpIngest album dir files now).result = .ok ps ∧
        ps.length = g.lightG.length ∧
        (∀ p ∈ ps, ∃ r, p.src = "/uploads/albums/" ++ album.id ++ "/light/" ++ r) ∧
        ((phpIngest album dir files now).albumDir.maxDir.getD []).length =
          (dir.maxDir.getD []).length + g.maxG.length) := by
  constructor
  · intro album dir files now hl hm hok
    have hb : (!(nodeSplitFiles files).lights.isEmpty &&
        !(nodeSplitFiles files).maxs.isEmpty) = true := by
      simp [hl, hm]
    obtain ⟨ps, hps, hlen, hsrc⟩ := nodeLightLoop_ok album.id now
      (nodeSplitFiles files).lights 0 hok
    refine ⟨ps, ?_, hlen, hsrc, ?_⟩
    · simp [nodeAppendPhotos, hb, hps]
    · intro fb hfb
      have hmem := foldl_moveInto_mem (nodeSplitFiles files).maxs
        (dir.maxDir.getD []) fb hfb
      simp [nodeAppendPhotos, hb, hps]
      exact hmem
  · intro album dir files now g hg hl hm hok
    have hs : (album.hasLightMax && (g.lightG.isEmpty || g.maxG.isEmpty)) = false := by
      simp [hl, hm]
    have hu : ((!g.lightG.isEmpty && !g.maxG.isEmpty) || album.hasLightMax) = true := by
      simp [hl, hm]
    obtain ⟨accF, ps, heq, hlen, hacc, hsrc⟩ := phpLightLoop_ok album.id now
      g.lightG (dir.lightDir.getD []) 0 hok
    refine ⟨ps, ?_, hlen, hsrc, ?_⟩
    · simp [phpIngest, hg, hs, hu, heq]
    · simp [phpIngest, hg, hs, hu, heq]
      rw [phpMaxLoop_length]

theorem C7_lightmax_one_photo_per_light_file_witness :
    (∃ ps, (nodeAppendPhotos flatAlbum emptyDirs [lightPairFile, maxPairFile]
        1).result = .ok ps ∧
      ps.length = (nodeSplitFiles [lightPairFile, maxPairFile]).lights.length ∧
      (∀ p ∈ ps, ∃ r, p.src = "/uploads/albums/" ++ flatAlbum.id ++ "/light/" ++ r) ∧
      (∀ fb ∈ (nodeSplitFiles [lightPairFile, maxPairFile]).maxs,
        fb.2 ∈ (nodeAppendPhotos flatAlbum emptyDirs [lightPairFile, maxPairFile]
          1).albumDir.maxDir.getD [])) ∧
    (∃ ps, (phpIngest flatAlbum bareDir [lightPairFile, maxPairFile] 1).result =
        .ok ps ∧
      ps.length = 1 ∧
      (∀ p ∈ ps, ∃ r, p.src = "/uploads/albums/" ++ flatAlbum.id ++ "/light/" ++ r) ∧
      ((phpIngest flatAlbum bareDir [lightPairFile, maxPairFile]
        1).albumDir.maxDir.getD []).length = (bareDir.maxDir.getD []).length + 1) :=
  ⟨C7_lightmax_one_photo_per_light_file.1 flatAlbum emptyDirs
      [lightPairFile, maxPairFile] 1 (by decide) (by decide) (by decide),
    C7_lightmax_one_photo_per_light_file.2 flatAlbum bareDir
      [lightPairFile, maxPairFile] 1
      ⟨[(lightPairFile, "photo.jpg")], [(maxPairFile, "photo.jpg")], []⟩
      rfl (by decide) (by decide) (by decide)⟩

/-! ### Claim C10 -/

/-- C10: when a batch is processed in flat mode (the light or the max group
is empty, and in PHP the album is not flagged `hasLightMax`) and contains at
least one untagged file, exactly the untagged files are ingested: the
response is a success listing one photo per untagged file, the `light` and
`max` directory contents are untouched (the tagged files are never moved
into the album), and the album root grows by exactly the number of untagged
files.  No error is reported for the dropped tagged files. -/
theorem C10_flat_batch_ignores_tagged_files :
    (∀ (album : Album) (dir : AlbumDir) (files : List UFile) (now : Nat),
      (nodeSplitFiles files).others ≠ [] →
      ((nodeSplitFiles files).lights = [] ∨ (nodeSplitFiles files).maxs = []) →
      (∀ f ∈ (nodeSplitFiles files).others, f.thumbOk = true) →
      ∃ ps, (nodeAppendPhotos album dir files now).result = .ok ps ∧
        ps.length = (nodeSplitFiles files).others.length ∧
        (nodeAppendPhotos album dir files now).albumDir.lightDir =
          some (dir.lightDir.getD []) ∧
        (nodeAppendPhotos album dir files now).albumDir.maxDir =
          some (dir.maxDir.getD []) ∧
        (nodeAppendPhotos album dir files now).albumDir.rootFiles.length =
          dir.rootFiles.length + (nodeSplitFiles files).others.length) ∧
    (∀ (album : Album) (dir : AlbumDir) (files : List UFile) (now : Nat)
      (g : PhpGroups), phpGroupFiles files = .ok g →
      album.hasLightMax = false →
      g.otherG ≠ [] →
      (g.lightG = [] ∨ g.maxG = []) →
      (∀ e ∈ g.otherG, e.1.thumbOk = true) →
      ∃ ps, (phpIngest album dir files now).result = .ok ps ∧
        ps.length = g.otherG.length ∧
        (phpIngest album dir files now).albumDir.lightDir = dir.lightDir ∧
        (phpIngest album dir files now).albumDir.maxDir = dir.maxDir ∧
        (phpIngest album dir files now).albumDir.rootFiles.length =
          dir.rootFiles.length + g.otherG.length) := by
  constructor
  · intro album dir files now ho hlm hok
    have hb : (!(nodeSplitFiles files).lights.isEmpty &&
        !(nodeSplitFiles files).maxs.isEmpty) = false := by
      rcases hlm with h | h <;> simp [h]
    obtain ⟨rootF, ps, heq, hlen, hroot⟩ := nodeFlatLoop_ok album.id now
      (nodeSplitFiles files).others dir.rootFiles 0 hok
    refine ⟨ps, ?_, hlen, ?_, ?_, ?_⟩ <;>
      simp [nodeAppendPhotos, hb, ho, heq, hroot]
  · intro album dir files now g hg hflag ho hlm hok
    have hs : (album.hasLightMax && (g.lightG.isEmpty || g.maxG.isEmpty)) = false := by
      simp [hflag]
    have hu : ((!g.lightG.isEmpty && !g.maxG.isEmpty) || album.hasLightMax) = false := by
      rcases hlm with h | h <;> simp [h, hflag]
    obtain ⟨accF, ps, heq, hlen, hacc⟩ := phpFlatLoop_ok album.id now
      g.otherG dir.rootFiles 0 hok
    refine ⟨ps, ?_, hlen, ?_, ?_, ?_⟩ <;>
      simp [phpIngest, hg, hs, hu, ho, heq, hacc]

theorem C10_flat_batch_ignores_tagged_files_witness :
    (∃ ps, (nodeAppendPhotos flatAlbum emptyDirs [untaggedFile, lightPairFile]
        1).result = .ok ps ∧
      ps.length = (nodeSplitFiles [untaggedFile, lightPairFile]).others.length ∧
      (nodeAppendPhotos flatAlbum emptyDirs [untaggedFile, lightPairFile]
        1).albumDir.lightDir = some (emptyDirs.lightDir.getD []) ∧
      (nodeAppendPhotos flatAlbum emptyDirs [untaggedFile, lightPairFile]
        1).albumDir.maxDir = some (emptyDirs.maxDir.getD []) ∧
      (nodeAppendPhotos flatAlbum emptyDirs [untaggedFile, lightPairFile]
        1).albumDir.rootFiles.length = emptyDirs.rootFiles.length +
          (nodeSplitFiles [untaggedFile, lightPairFile]).others.length) ∧
    (∃ ps, (phpIngest flatAlbum bareDir [untaggedFile, lightPairFile] 1).result =
        .ok ps ∧
      ps.length = 1 ∧
      (phpIngest flatAlbum bareDir [untaggedFile, lightPairFile]
        1).albumDir.lightDir = bareDir.lightDir ∧
      (phpIngest flatAlbum bareDir [untaggedFile, lightPairFile]
        1).albumDir.maxDir = bareDir.maxDir ∧
      (phpIngest flatAlbum bareDir [untaggedFile, lightPairFile]
        1).albumDir.rootFiles.length = bareDir.rootFiles.length + 1) :=
  ⟨C10_flat_batch_ignores_tagged_files.1 flatAlbum emptyDirs
      [untaggedFile, lightPairFile] 1 (by decide) (Or.inr (by decide)) (by decide),
    C10_flat_batch_ignores_tagged_files.2 flatAlbum bareDir
      [untaggedFile, lightPairFile] 1
      ⟨[(lightPairFile, "photo.jpg")], [], [(untaggedFile, "photo.jpg")]⟩
      rfl rfl (by decide) (Or.inr (by decide)) (by decide)⟩

theorem C6_thumbnail_failure_fails_batch_witness :
    ((∃ e, (nodeAppendPhotos flatAlbum emptyDirs [badThumbFile] 1).result = .error e) ∧
      (nodeAppendPhotos flatAlbum emptyDirs [badThumbFile] 1).album = flatAlbum) ∧
    ((∃ e, (phpIngest flatAlbum bareDir [badThumbFile] 1).result = .error e) ∧
      (phpIngest flatAlbum bareDir [badThumbFile] 1).album = flatAlbum) :=
  ⟨C6_thumbnail_failure_fails_batch.1 flatAlbum emptyDirs [badThumbFile] 1
      ⟨badThumbFile, by decide, rfl⟩,
    C6_thumbnail_failure_fails_batch.2 flatAlbum bareDir [badThumbFile] 1
      ⟨[], [], [(badThumbFile, "bad.jpg")]⟩ rfl ⟨(badThumbFile, "bad.jpg"), by decide, rfl⟩⟩

/-! ### Claim C8 -/

/-- C8: deleting an existing album (under the invariant that stored ids
are distinct, which holds since ids are server-generated UUIDs) removes it:
afterwards it is absent from `listAlbums`, `getAlbum` returns not-found,
and a second delete of the same id is a pure 404 no-op — the handler
returns before touching the store or the filesystem. -/
theorem C8_delete_album_idempotent (albums : List Album) (albumId : String)
    (a : Album) (hnd : (albums.map Album.id).Nodup)
    (hget : getAlbum albums albumId = some a) :
    ∃ albums', deleteAlbum albums albumId = .ok albums' ∧
      getAlbum albums' albumId = none ∧
      (∀ b ∈ listAlbums albums', b.id ≠ albumId) ∧
      deleteAlbum albums' albumId = .error 404 := by
  induction albums with
  | nil => simp [getAlbum] at hget
  | cons x rest ih =>
    rw [List.map_cons, List.nodup_cons] at hnd
    obtain ⟨hx, hrest⟩ := hnd
    by_cases hxid : x.id = albumId
    · have hnone : ∀ b ∈ rest, b.id ≠ albumId := by
        intro b hb heq
        exact hx (List.mem_map.mpr ⟨b, hb, by rw [heq, hxid]⟩)
      refine ⟨rest, ?_, ?_, hnone, ?_⟩
      · simp [deleteAlbum, findAlbumIdx, hxid]
      · rw [getAlbum]
        exact List.find?_eq_none.mpr fun b hb => by simp [hnone b hb]
      · rw [deleteAlbum, findAlbumIdx_eq_none albumId rest hnone]
    · have hget' : getAlbum rest albumId = some a := by
        rw [getAlbum, List.find?_cons_of_neg _ (by simp [hxid])] at hget
        exact hget
      obtain ⟨rest', h1, h2, h3, h4⟩ := ih hrest hget'
      cases hfi : findAlbumIdx rest albumId with
      | none => rw [deleteAlbum, hfi] at h1; cases h1
      | some i =>
        rw [deleteAlbum, hfi] at h1
        have hrest' : rest' = rest.eraseIdx i := by
          cases h1
          rfl
        refine ⟨x :: rest', ?_, ?_, ?_, ?_⟩
        · simp [deleteAlbum, findAlbumIdx, hxid, hfi, List.eraseIdx, hrest']
        · rw [getAlbum, List.find?_cons_of_neg _ (by simp [hxid])]
          exact h2
        · intro b hb
          rw [listAlbums, List.mem_cons] at hb
          rcases hb with rfl | hb
          · exact hxid
          · exact h3 b hb
        · cases hfi' : findAlbumIdx rest' albumId with
          | some j => rw [deleteAlbum, hfi'] at h4; cases h4
          | none => simp [deleteAlbum, findAlbumIdx, hxid, hfi']

def secondAlbum : Album := ⟨"a2", "B", "", [], false, 0, 0⟩

theorem C8_delete_album_idempotent_witness :
    ∃ albums', deleteAlbum [flatAlbum, secondAlbum] "a1" = .ok albums' ∧
      getAlbum albums' "a1" = none ∧
      (∀ b ∈ listAlbums albums', b.id ≠ "a1") ∧
      deleteAlbum albums' "a1" = .error 404 :=
  C8_delete_album_idempotent [flatAlbum, secondAlbum] "a1" flatAlbum
    (by decide) rfl

/-! ### Claim C9 -/

def c9Upload : Except String (Album × List Photo × AlbumDir) :=
  phpBulkUpload "a1" "A" [untaggedFile] 0

def c9Dir : AlbumDir :=
  match c9Upload with
  | .ok (_, _, d) => d
  | .error _ => emptyDirs

/-- C9 counterexample: implicit creation through the PHP bulk-upload
endpoint with a flat (untagged) batch succeeds but creates no `light` or
`max` subdirectory — `ingest_files_into_album` only ensures the album root,
and the variant directories are created solely inside its light/max
branch. -/
theorem C9_php_bulk_flat_album_lacks_variant_dirs :
    c9Upload.toOption.isSome = true ∧
    c9Dir.rootFiles = ["photo.jpg"] ∧
    c9Dir.lightDir = none ∧
    c9Dir.maxDir = none :=
  ⟨rfl, rfl, rfl, rfl⟩

/-- C9 (amended): explicit creation (`POST /api/albums`, both backends)
always produces the album directory with empty `light` and `max`
subdirectories, and the Node bulk-upload endpoint creates both
unconditionally as well, even for a flat batch; the PHP bulk-upload
endpoint creates them only when the ingested batch is light/max-paired (a
flat PHP bulk upload yields an album directory without them — see the
counterexample). -/
theorem C9_created_albums_have_variant_dirs :
    (∀ (albumId name : String) (now : Nat) (alb : Album) (d : AlbumDir),
      nodeCreateAlbum albumId name now = .ok (alb, d) →
      d.lightDir = some [] ∧ d.maxDir = some []) ∧
    (∀ (albumId name : String) (files : List UFile) (now : Nat) (alb : Album)
      (ps : List Photo) (d : AlbumDir),
      nodeBulkUpload albumId name files now = .ok (alb, ps, d) →
      d.lightDir.isSome = true ∧ d.maxDir.isSome = true) ∧
    (∀ (albumId name : String) (now : Nat) (alb : Album) (d : AlbumDir),
      phpCreateAlbum albumId name now = .ok (alb, d) →
      d.lightDir = some [] ∧ d.maxDir = some []) ∧
    (∀ (albumId name : String) (files : List UFile) (now : Nat) (alb : Album)
      (ps : List Photo) (d : AlbumDir) (g : PhpGroups),
      phpGroupFiles files = .ok g → g.lightG ≠ [] → g.maxG ≠ [] →
      phpBulkUpload albumId name files now = .ok (alb, ps, d) →
      d.lightDir.isSome = true ∧ d.maxDir.isSome = true) := by
  refine ⟨?_, ?_, ?_, ?_⟩
  · intro albumId name now alb d h
    by_cases ht : trimString name = ""
    · simp [nodeCreateAlbum, ht] at h
    · simp only [nodeCreateAlbum, if_neg ht, Except.ok.injEq, Prod.mk.injEq] at h
      rw [← h.2]
      exact ⟨rfl, rfl⟩
  · intro albumId name files now alb ps d h
    by_cases ht : trimString name = ""
    · simp [nodeBulkUpload, ht] at h
    · cases hb : (!(nodeSplitFiles files).lights.isEmpty &&
          !(nodeSplitFiles files).maxs.isEmpty) with
      | true =>
        cases heq : nodeLightLoop albumId now (nodeSplitFiles files).lights 0 with
        | error e => simp [nodeBulkUpload, ht, hb, heq] at h
        | ok ps' =>
          simp only [nodeBulkUpload, if_neg ht, hb, heq, if_true,
            Except.ok.injEq, Prod.mk.injEq] at h
          rw [← h.2.2]
          exact ⟨rfl, rfl⟩
      | false =>
        rcases hloop : nodeFlatLoop albumId now
          (if !(nodeSplitFiles files).others.isEmpty then (nodeSplitFiles files).others
            else files) [] 0 with ⟨rootF, res⟩
        simp only [nodeBulkUpload, if_neg ht, hb, Bool.false_eq_true, if_false] at h
        rw [hloop] at h
        cases res with
        | error e => simp at h
        | ok ps' =>
          simp only [Except.ok.injEq, Prod.mk.injEq] at h
          rw [← h.2.2]
          exact ⟨rfl, rfl⟩
  · intro albumId name now alb d h
    by_cases ht : trimString name = ""
    · simp [phpCreateAlbum, ht] at h
    · simp only [phpCreateAlbum, if_neg ht, Except.ok.injEq, Prod.mk.injEq] at h
      rw [← h.2]
      exact ⟨rfl, rfl⟩
  · intro albumId name files now alb ps d g hg hl hm h
    by_cases ht : trimString name = ""
    · simp [phpBulkUpload, ht] at h
    · by_cases hf : files.isEmpty = true
      · simp [phpBulkUpload, ht, hf] at h
      · have hs : ((⟨albumId, trimString name, "", [], false, now, now⟩ :
            Album).hasLightMax && (g.lightG.isEmpty || g.maxG.isEmpty)) = false := by
          simp
        have hu : ((!g.lightG.isEmpty && !g.maxG.isEmpty) ||
            (⟨albumId, trimString name, "", [], false, now, now⟩ :
              Album).hasLightMax) = true := by
          simp [hl, hm]
        rcases hloop : phpLightLoop albumId now g.lightG [] 0 with ⟨accF, res⟩
        cases res with
        | error e =>
          have : (phpIngest ⟨albumId, trimString name, "", [], false, now, now⟩
              ⟨[], none, none⟩ files now).result = .error e := by
            simp [phpIngest, hg, hs, hu, hloop]
          simp [phpBulkUpload, ht, hf, this] at h
        | ok ps' =>
          have hres : (phpIngest ⟨albumId, trimString name, "", [], false, now, now⟩
              ⟨[], none, none⟩ files now).result = .ok ps' := by
            simp [phpIngest, hg, hs, hu, hloop]
          have hdir : (phpIngest ⟨albumId, trimString name, "", [], false, now, now⟩
              ⟨[], none, none⟩ files now).albumDir =
              ⟨[], some accF, some (phpMaxLoop g.maxG [])⟩ := by
            simp [phpIngest, hg, hs, hu, hloop]
          simp only [phpBulkUpload, if_neg ht, hf, Bool.false_eq_true, if_false,
            hres, Except.ok.injEq, Prod.mk.injEq] at h
          rw [← h.2.2, hdir]
          exact ⟨rfl, rfl⟩

theorem C9_created_albums_have_variant_dirs_witness :
    ((nodeCreateAlbum "a1" "A" 0).toOption.map (fun r => r.2.lightDir) =
        some (some []) ∧
      emptyDirs.lightDir = some [] ∧ emptyDirs.maxDir = some []) ∧
    c9Dir.lightDir = none := by
  refine ⟨⟨?_, ?_, ?_⟩, rfl⟩
  · rfl
  · exact (C9_created_albums_have_variant_dirs.1 "a1" "A" 0
      ⟨"a1", "A", "", [], false, 0, 0⟩ ⟨[], some [], some []⟩ rfl).1
  · exact (C9_created_albums_have_variant_dirs.1 "a1" "A" 0
      ⟨"a1", "A", "", [], false, 0, 0⟩ ⟨[], some [], some []⟩ rfl).2

end Lena
